import Mathlib

/-!
Shallow embedding of `src/noise/noise_protocol.py` (class `NoiseProtocol`):
the protocol-descriptor and handshake-lifecycle controller of a Noise-style
handshake framework.

Modelling conventions:
- Byte strings are `List Nat` (`Bytes`); the protocol name, which the source
  decodes to text before parsing, is a `List Char`.
- Python exceptions become an explicit error type `PyError`: `ValueError`
  carries its message string, `IndexError` and `AttributeError` model the
  raw exceptions escaping from list indexing and from reading or deleting a
  missing attribute.
- `str.split(sep)` for a one-character separator is `pySplit`;
  Python and this definition agree on all inputs, including the empty string.
- The registries (`patterns_map`, `dh_map`, `cipher_map`, `hash_map`,
  `keypair_map`) live in modules that are external to this core, so they are
  parameters: association lists from key strings to opaque capability tags.
- Mutable attributes that the external handshake engine populates
  (`handshake_state`, `symmetric_state`) are `Option`-valued fields: `none`
  models the `Empty()` placeholder, on which any attribute read raises
  `AttributeError`.
- `del self.cipher_state_encrypt / _decrypt` is modelled by a presence flag
  per slot; reading or deleting an absent slot raises `AttributeError`.
- Methods that mutate `self` become functions returning a new record (or an
  error); on an error path the partially mutated object is not observable in
  this model, which is sufficient for the stated claims.
-/

abbrev Bytes := List Nat

inductive PyError where
  | valueError (msg : String)
  | indexError
  | attributeError (attr : String)
deriving Repr, DecidableEq

/-- Classifies the programming-error failure class (raw `AttributeError`),
as opposed to the recoverable `ValueError` class used for malformed input. -/
def PyError.isProgrammingError : PyError → Bool
  | .attributeError _ => true
  | _ => false

/-- Classifies the malformed-identifier / unknown-primitive / invalid-PSK
class of failures, which the source raises as `ValueError`. -/
def PyError.isMalformedClass : PyError → Bool
  | .valueError _ => true
  | _ => false

/-- Modelled from the spec: `MAX_PROTOCOL_NAME_LEN` is imported from
`noise.constants`, which is not part of the provided sources; the spec only
requires a fixed maximum-length bound enforced before parsing.  The Noise
specification bound of 255 is used; no claim depends on the exact value. -/
def MAX_PROTOCOL_NAME_LEN : Nat := 255

/-- Modelled from the spec: a handshake-pattern registry entry
(`noise.patterns` is not part of the provided sources).  Per the spec it
carries a declared `psk_count`, a fixed `one_way` classification, and a
modifier-application capability that fails on unrecognized modifiers and
preserves the pattern identity. -/
structure Pattern where
  psk_count : Nat
  one_way : Bool
  recognized_modifiers : List (List Char)
deriving Repr, DecidableEq

/-- Modelled from the spec: `apply_pattern_modifiers` accepts the ordered
modifier list and fails if a modifier is unrecognized or inapplicable to the
pattern; the pattern identity is immutable after application. -/
def Pattern.apply_pattern_modifiers (p : Pattern) (mods : List (List Char)) :
    Except PyError Pattern :=
  if ∀ m ∈ mods, m ∈ p.recognized_modifiers then .ok p
  else .error (.valueError "Unsupported pattern modifier")

/-- Lookup in an association list, modelling Python `dict.get` over a
registry. -/
def assocLookup {α : Type} : List (List Char × α) → List Char → Option α
  | [], _ => none
  | (k, v) :: rest, key => if k = key then some v else assocLookup rest key

/-- The five primitive registries consumed by the descriptor
(`NoiseProtocol.methods` in the source).  Values of the DH, cipher, hash and
key-pair registries are opaque capability tags. -/
structure Methods where
  patterns_map : List (List Char × Pattern)
  dh_map : List (List Char × String)
  cipher_map : List (List Char × String)
  hash_map : List (List Char × String)
  keypair_map : List (List Char × String)

/-- Python `text.split(sep)` for a single-character separator:
no collapsing of adjacent separators, `pySplit sep [] = [[]]`. -/
def pySplit (sep : Char) : List Char → List (List Char)
  | [] => [[]]
  | c :: cs =>
    if c = sep then [] :: pySplit sep cs
    else
      match pySplit sep cs with
      | [] => [[c]]
      | s :: ss => (c :: s) :: ss

/-- Python list indexing `l[i]` for a non-negative index: out of range
raises a raw `IndexError`. -/
def listGet : List (List Char) → Nat → Except PyError (List Char)
  | [], _ => .error .indexError
  | s :: _, 0 => .ok s
  | _ :: rest, n + 1 => listGet rest n

/-- The leading run of uppercase characters and the remaining suffix:
the `for i, char in enumerate(unpacked[1])` loop of
`_parse_protocol_name`. -/
def upperRun : List Char → List Char × List Char
  | [] => ([], [])
  | c :: cs =>
    if c.isUpper then
      let pr := upperRun cs
      (c :: pr.1, pr.2)
    else ([], c :: cs)

/-- Extraction of the pattern name and modifiers from segment 1:
the loop plus `modifiers_str.split('+') if modifiers_str else []` of
`_parse_protocol_name`.  A `none`-valued `modifiers_str` (all characters
uppercase) and an empty suffix both yield the empty modifier list. -/
def extractPatternModifiers (seg1 : List Char) : List Char × List (List Char) :=
  let pr := upperRun seg1
  (pr.1, if pr.2.isEmpty then [] else pySplit '+' pr.2)

/-- The five resolved registry entries (`mapped_data` in the source). -/
structure MappedData where
  pattern : Pattern
  dh : String
  cipher : String
  hash : String
  keypair : String
deriving Repr, DecidableEq

/-- Registry lookup with the unknown-primitive `ValueError` of
`_parse_protocol_name`, naming the role, the requested key and the set of
known keys. -/
def registryGet {α : Type} (role : String) (m : List (List Char × α))
    (key : List Char) : Except PyError α :=
  match assocLookup m key with
  | some f => .ok f
  | none => .error (.valueError ("Unknown " ++ role ++
      " in Noise Protocol name, given " ++ String.mk key ++ ", known " ++
      String.intercalate " " (m.map fun kv => String.mk kv.1)))

/-- The body of `_parse_protocol_name` after `split('_')`, taking the
segment list explicitly.  Checks the `Noise` prefix, extracts pattern name
and modifiers from segment 1, reads segments 2, 3, 4 verbatim as the DH,
cipher and hash keys (the DH key doubling as the key-pair key), and performs
the five registry lookups in the iteration order of `NoiseProtocol.methods`:
pattern, dh, cipher, hash, keypair. -/
def parseSegments (methods : Methods) (name : List Char)
    (unpacked : List (List Char)) :
    Except PyError (MappedData × List (List Char)) :=
  if unpacked.headD [] ≠ "Noise".toList then
    .error (.valueError ("Noise Protocol name shall begin with Noise! Provided: "
      ++ String.mk name))
  else
    match listGet unpacked 1 with
    | .error e => .error e
    | .ok seg1 =>
      match listGet unpacked 2 with
      | .error e => .error e
      | .ok dhKey =>
        match listGet unpacked 3 with
        | .error e => .error e
        | .ok cipherKey =>
          match listGet unpacked 4 with
          | .error e => .error e
          | .ok hashKey =>
            let pm := extractPatternModifiers seg1
            match registryGet "pattern" methods.patterns_map
                ("Pattern".toList ++ pm.1) with
            | .error e => .error e
            | .ok patternF =>
              match registryGet "dh" methods.dh_map dhKey with
              | .error e => .error e
              | .ok dhF =>
                match registryGet "cipher" methods.cipher_map cipherKey with
                | .error e => .error e
                | .ok cipherF =>
                  match registryGet "hash" methods.hash_map hashKey with
                  | .error e => .error e
                  | .ok hashF =>
                    match registryGet "keypair" methods.keypair_map dhKey with
                    | .error e => .error e
                    | .ok keypairF =>
                      .ok ({ pattern := patternF, dh := dhF, cipher := cipherF,
                             hash := hashF, keypair := keypairF }, pm.2)

/-- `NoiseProtocol._parse_protocol_name`. -/
def parseProtocolName (methods : Methods) (name : List Char) :
    Except PyError (MappedData × List (List Char)) :=
  parseSegments methods name (pySplit '_' name)

/-- The slice of the handshake state this core reads: the `initiator` role
flag, populated by the external handshake engine. -/
structure HandshakeState where
  initiator : Bool
deriving Repr, DecidableEq

/-- The slice of the symmetric state this core reads: the transcript
hash `h`, populated by the external handshake engine. -/
structure SymmetricState where
  h : Bytes
deriving Repr, DecidableEq

/-- The protocol descriptor: the attributes `NoiseProtocol.__init__`
assigns.  The `hmac` / `hkdf` wrappers of external primitives are
determined by `hash_fn` and are omitted. -/
structure NoiseProtocol where
  name : List Char
  pattern : Pattern
  pattern_modifiers : List (List Char)
  psks : Option (List Bytes)
  is_psk_handshake : Bool
  dh_fn : String
  cipher_fn : String
  hash_fn : String
  keypair_fn : String
  initiator : Option Bool
  one_way : Bool
  handshake_hash : Option Bytes
  handshake_state : Option HandshakeState
  symmetric_state : Option SymmetricState
  cipher_state_handshake_present : Bool
  cipher_state_encrypt_present : Bool
  cipher_state_decrypt_present : Bool
deriving Repr, DecidableEq

/-- `NoiseProtocol.__init__` for a `bytes` protocol name (the wrong-type
branch is unrepresentable in this typed model): length check, name parsing,
pattern instantiation and modifier application, PSK validation, and
assignment of the resolved primitives and placeholder state. -/
def NoiseProtocol.init (methods : Methods) (protocol_name : List Char)
    (psks : Option (List Bytes)) : Except PyError NoiseProtocol :=
  if protocol_name.length > MAX_PROTOCOL_NAME_LEN then
    .error (.valueError ("Protocol name too long, has to be at most " ++
      toString MAX_PROTOCOL_NAME_LEN ++ " chars long"))
  else
    match parseProtocolName methods protocol_name with
    | .error e => .error e
    | .ok (mappings, pattern_modifiers) =>
      match (if pattern_modifiers.isEmpty then .ok mappings.pattern
             else mappings.pattern.apply_pattern_modifiers pattern_modifiers :
             Except PyError Pattern) with
      | .error e => .error e
      | .ok pattern =>
        let psksList := psks.getD []
        let is_psk_handshake := !psksList.isEmpty
        if is_psk_handshake && psksList.any (fun psk => psk.length != 32) then
          .error (.valueError "Invalid psk length!")
        else if is_psk_handshake && (psksList.length != pattern.psk_count) then
          .error (.valueError ("Bad number of PSKs provided to this protocol! " ++
            toString pattern.psk_count ++ " are required, given " ++
            toString psksList.length))
        else
          .ok { name := protocol_name
                pattern := pattern
                pattern_modifiers := pattern_modifiers
                psks := psks
                is_psk_handshake := is_psk_handshake
                dh_fn := mappings.dh
                cipher_fn := mappings.cipher
                hash_fn := mappings.hash
                keypair_fn := mappings.keypair
                initiator := none
                one_way := false
                handshake_hash := none
                handshake_state := none
                symmetric_state := none
                cipher_state_handshake_present := true
                cipher_state_encrypt_present := true
                cipher_state_decrypt_present := true }

/-- `NoiseProtocol.handshake_done`: read `initiator` from the handshake
state, for a one-way pattern `del` the cipher-state slot of the unused
direction (an already-deleted slot raises `AttributeError`), then copy the
transcript hash from the symmetric state. -/
def NoiseProtocol.handshake_done (self : NoiseProtocol) :
    Except PyError NoiseProtocol :=
  match self.handshake_state with
  | none => .error (.attributeError "initiator")
  | some hs =>
    match
      (if self.pattern.one_way then
        if hs.initiator then
          if self.cipher_state_decrypt_present then
            .ok { self with initiator := some hs.initiator,
                            cipher_state_decrypt_present := false }
          else .error (.attributeError "cipher_state_decrypt")
        else
          if self.cipher_state_encrypt_present then
            .ok { self with initiator := some hs.initiator,
                            cipher_state_encrypt_present := false }
          else .error (.attributeError "cipher_state_encrypt")
      else .ok { self with initiator := some hs.initiator } :
      Except PyError NoiseProtocol)
    with
    | .error e => .error e
    | .ok self2 =>
      match self2.symmetric_state with
      | none => .error (.attributeError "h")
      | some ss => .ok { self2 with handshake_hash := some ss.h }

/-- Reading the attribute `cipher_state_encrypt`: raises `AttributeError`
when the slot was deleted by one-way finalization. -/
def NoiseProtocol.read_cipher_state_encrypt (self : NoiseProtocol) :
    Except PyError Unit :=
  if self.cipher_state_encrypt_present then .ok ()
  else .error (.attributeError "cipher_state_encrypt")

/-- Reading the attribute `cipher_state_decrypt`: raises `AttributeError`
when the slot was deleted by one-way finalization. -/
def NoiseProtocol.read_cipher_state_decrypt (self : NoiseProtocol) :
    Except PyError Unit :=
  if self.cipher_state_decrypt_present then .ok ()
  else .error (.attributeError "cipher_state_decrypt")

/-- Identifier of the shape `Noise_<seg1>_<dh>_<cipher>_<hash>`. -/
def mkName (seg1 dhKey cipherKey hashKey : List Char) : List Char :=
  "Noise".toList ++ '_' ::
    (seg1 ++ '_' :: (dhKey ++ '_' :: (cipherKey ++ '_' :: hashKey)))

/-! Concrete registry fixtures used by witnesses and counterexamples.
The entries mirror the shape of the real registries: pattern keys carry the
`Pattern` prefix that `_parse_protocol_name` prepends before lookup. -/

def patternIK : Pattern :=
  { psk_count := 1, one_way := false, recognized_modifiers := ["psk2".toList] }

def patternXX : Pattern :=
  { psk_count := 0, one_way := false, recognized_modifiers := [] }

def patternN : Pattern :=
  { psk_count := 0, one_way := true, recognized_modifiers := [] }

def testMethods : Methods :=
  { patterns_map := [("PatternIK".toList, patternIK), ("PatternXX".toList, patternXX),
                     ("PatternN".toList, patternN)]
    dh_map := [("25519".toList, "X25519")]
    cipher_map := [("AESGCM".toList, "CipherAESGCM"),
                   ("ChaChaPoly".toList, "CipherChaChaPoly")]
    hash_map := [("SHA256".toList, "HashSHA256"), ("BLAKE2s".toList, "HashBLAKE2s")]
    keypair_map := [("25519".toList, "KeyPair25519")] }

/-! Basic lemmas about the split and scan primitives. -/

theorem pySplit_ne_nil (sep : Char) (l : List Char) : pySplit sep l ≠ [] := by
  cases l with
  | nil => simp [pySplit]
  | cons c cs =>
    simp only [pySplit]
    split
    · simp
    · split <;> simp

theorem pySplit_no_sep (sep : Char) (l : List Char) (h : sep ∉ l) :
    pySplit sep l = [l] := by
  induction l with
  | nil => rfl
  | cons c cs ih =>
    have hc : ¬(c = sep) := by intro e; exact h (by simp [e])
    have hcs : sep ∉ cs := by intro hx; exact h (by simp [hx])
    simp only [pySplit, if_neg hc, ih hcs]

theorem pySplit_append (sep : Char) (xs ys : List Char) (h : sep ∉ xs) :
    pySplit sep (xs ++ sep :: ys) = xs :: pySplit sep ys := by
  induction xs with
  | nil => simp [pySplit]
  | cons c cs ih =>
    have hc : ¬(c = sep) := by intro e; exact h (by simp [e])
    have hcs : sep ∉ cs := by intro hx; exact h (by simp [hx])
    simp only [List.cons_append, pySplit, if_neg hc, List.append_eq, ih hcs]

theorem upperRun_split (P mods : List Char)
    (hP : ∀ c ∈ P, c.isUpper = true)
    (hm : ∀ c, mods.head? = some c → c.isUpper = false) :
    upperRun (P ++ mods) = (P, mods) := by
  induction P with
  | nil =>
    cases mods with
    | nil => rfl
    | cons c cs =>
      have hc : c.isUpper = false := hm c rfl
      simp [upperRun, hc]
  | cons p ps ih =>
    have hp : p.isUpper = true := hP p (List.mem_cons_self p ps)
    have ih2 := ih (fun c hc => hP c (List.mem_cons_of_mem p hc))
    simp only [List.cons_append, upperRun, hp, if_true, List.append_eq, ih2]

theorem extractPatternModifiers_split (P mods : List Char)
    (hP : ∀ c ∈ P, c.isUpper = true)
    (hm : ∀ c, mods.head? = some c → c.isUpper = false) :
    extractPatternModifiers (P ++ mods) =
      (P, if mods.isEmpty then [] else pySplit '+' mods) := by
  unfold extractPatternModifiers
  rw [upperRun_split P mods hP hm]

theorem pySplit_mkName (seg1 dhKey cipherKey hashKey : List Char)
    (h1 : '_' ∉ seg1) (h2 : '_' ∉ dhKey) (h3 : '_' ∉ cipherKey)
    (h4 : '_' ∉ hashKey) :
    pySplit '_' (mkName seg1 dhKey cipherKey hashKey) =
      ["Noise".toList, seg1, dhKey, cipherKey, hashKey] := by
  unfold mkName
  rw [pySplit_append '_' "Noise".toList _ (by decide),
      pySplit_append '_' seg1 _ h1,
      pySplit_append '_' dhKey _ h2,
      pySplit_append '_' cipherKey _ h3,
      pySplit_no_sep '_' hashKey h4]

theorem pySplit_mkName_ext (seg1 dhKey cipherKey hashKey rest : List Char)
    (h1 : '_' ∉ seg1) (h2 : '_' ∉ dhKey) (h3 : '_' ∉ cipherKey)
    (h4 : '_' ∉ hashKey) :
    pySplit '_' (mkName seg1 dhKey cipherKey (hashKey ++ '_' :: rest)) =
      "Noise".toList :: seg1 :: dhKey :: cipherKey :: hashKey ::
        pySplit '_' rest := by
  unfold mkName
  rw [pySplit_append '_' "Noise".toList _ (by decide),
      pySplit_append '_' seg1 _ h1,
      pySplit_append '_' dhKey _ h2,
      pySplit_append '_' cipherKey _ h3,
      pySplit_append '_' hashKey _ h4]

theorem parseSegments_ok (methods : Methods) (name : List Char)
    (P mods dhKey cipherKey hashKey : List Char) (tail : List (List Char))
    (pat : Pattern) (dhF cipherF hashF keypairF : String)
    (hP : ∀ c ∈ P, c.isUpper = true)
    (hm : ∀ c, mods.head? = some c → c.isUpper = false)
    (hpat : assocLookup methods.patterns_map ("Pattern".toList ++ P) = some pat)
    (hdh : assocLookup methods.dh_map dhKey = some dhF)
    (hci : assocLookup methods.cipher_map cipherKey = some cipherF)
    (hha : assocLookup methods.hash_map hashKey = some hashF)
    (hkp : assocLookup methods.keypair_map dhKey = some keypairF) :
    parseSegments methods name
      ("Noise".toList :: (P ++ mods) :: dhKey :: cipherKey :: hashKey :: tail) =
      .ok ({ pattern := pat, dh := dhF, cipher := cipherF, hash := hashF,
             keypair := keypairF },
           if mods.isEmpty then [] else pySplit '+' mods) := by
  simp only [parseSegments, listGet, List.headD_cons, ne_eq, not_true_eq_false,
    if_false, extractPatternModifiers_split P mods hP hm, registryGet,
    hpat, hdh, hci, hha, hkp]

theorem parseProtocolName_ok (methods : Methods)
    (P mods dhKey cipherKey hashKey : List Char)
    (pat : Pattern) (dhF cipherF hashF keypairF : String)
    (hP : ∀ c ∈ P, c.isUpper = true)
    (hm : ∀ c, mods.head? = some c → c.isUpper = false)
    (hPu : '_' ∉ P) (hmu : '_' ∉ mods)
    (h2 : '_' ∉ dhKey) (h3 : '_' ∉ cipherKey) (h4 : '_' ∉ hashKey)
    (hpat : assocLookup methods.patterns_map ("Pattern".toList ++ P) = some pat)
    (hdh : assocLookup methods.dh_map dhKey = some dhF)
    (hci : assocLookup methods.cipher_map cipherKey = some cipherF)
    (hha : assocLookup methods.hash_map hashKey = some hashF)
    (hkp : assocLookup methods.keypair_map dhKey = some keypairF) :
    parseProtocolName methods (mkName (P ++ mods) dhKey cipherKey hashKey) =
      .ok ({ pattern := pat, dh := dhF, cipher := cipherF, hash := hashF,
             keypair := keypairF },
           if mods.isEmpty then [] else pySplit '+' mods) := by
  have h1 : '_' ∉ P ++ mods := by
    intro hx
    rcases List.mem_append.mp hx with hx | hx
    · exact hPu hx
    · exact hmu hx
  unfold parseProtocolName
  rw [pySplit_mkName _ _ _ _ h1 h2 h3 h4]
  exact parseSegments_ok methods _ P mods dhKey cipherKey hashKey []
    pat dhF cipherF hashF keypairF hP hm hpat hdh hci hha hkp

theorem parseProtocolName_ok_ext (methods : Methods)
    (P mods dhKey cipherKey hashKey rest : List Char)
    (pat : Pattern) (dhF cipherF hashF keypairF : String)
    (hP : ∀ c ∈ P, c.isUpper = true)
    (hm : ∀ c, mods.head? = some c → c.isUpper = false)
    (hPu : '_' ∉ P) (hmu : '_' ∉ mods)
    (h2 : '_' ∉ dhKey) (h3 : '_' ∉ cipherKey) (h4 : '_' ∉ hashKey)
    (hpat : assocLookup methods.patterns_map ("Pattern".toList ++ P) = some pat)
    (hdh : assocLookup methods.dh_map dhKey = some dhF)
    (hci : assocLookup methods.cipher_map cipherKey = some cipherF)
    (hha : assocLookup methods.hash_map hashKey = some hashF)
    (hkp : assocLookup methods.keypair_map dhKey = some keypairF) :
    parseProtocolName methods
      (mkName (P ++ mods) dhKey cipherKey (hashKey ++ '_' :: rest)) =
      .ok ({ pattern := pat, dh := dhF, cipher := cipherF, hash := hashF,
             keypair := keypairF },
           if mods.isEmpty then [] else pySplit '+' mods) := by
  have h1 : '_' ∉ P ++ mods := by
    intro hx
    rcases List.mem_append.mp hx with hx | hx
    · exact hPu hx
    · exact hmu hx
  unfold parseProtocolName
  rw [pySplit_mkName_ext _ _ _ _ _ h1 h2 h3 h4]
  exact parseSegments_ok methods _ P mods dhKey cipherKey hashKey
    (pySplit '_' rest) pat dhF cipherF hashF keypairF hP hm hpat hdh hci hha hkp

/-- The pattern-instantiation / modifier-application step of `__init__`:
with every parsed modifier recognized by the pattern, it returns the
resolved pattern entry unchanged. -/
theorem applyStep_ok (p : Pattern) (mods : List (List Char))
    (happ : ∀ m ∈ mods, m ∈ p.recognized_modifiers) :
    (if mods.isEmpty then Except.ok p
     else p.apply_pattern_modifiers mods) = Except.ok p := by
  cases mods with
  | nil => rfl
  | cons m ms =>
    simp only [List.isEmpty_cons, Bool.false_eq_true, if_false,
      Pattern.apply_pattern_modifiers, if_pos happ]

/-- Normalization of `__init__` after a successful parse with applicable
modifiers: what remains is exactly the PSK validation and the final
assignment of the descriptor attributes. -/
theorem init_of_parse (methods : Methods) (name : List Char)
    (psks : Option (List Bytes)) (md : MappedData) (mods : List (List Char))
    (hlen : name.length ≤ MAX_PROTOCOL_NAME_LEN)
    (hparse : parseProtocolName methods name = .ok (md, mods))
    (happ : ∀ m ∈ mods, m ∈ md.pattern.recognized_modifiers) :
    NoiseProtocol.init methods name psks =
      (if (!(psks.getD []).isEmpty) &&
          (psks.getD []).any (fun psk => psk.length != 32) then
         .error (.valueError "Invalid psk length!")
       else if (!(psks.getD []).isEmpty) &&
          ((psks.getD []).length != md.pattern.psk_count) then
         .error (.valueError ("Bad number of PSKs provided to this protocol! " ++
           toString md.pattern.psk_count ++ " are required, given " ++
           toString (psks.getD []).length))
       else
         .ok { name := name, pattern := md.pattern, pattern_modifiers := mods,
               psks := psks, is_psk_handshake := !(psks.getD []).isEmpty,
               dh_fn := md.dh, cipher_fn := md.cipher, hash_fn := md.hash,
               keypair_fn := md.keypair, initiator := none, one_way := false,
               handshake_hash := none, handshake_state := none,
               symmetric_state := none, cipher_state_handshake_present := true,
               cipher_state_encrypt_present := true,
               cipher_state_decrypt_present := true }) := by
  unfold NoiseProtocol.init
  rw [if_neg (by omega), hparse]
  simp only [applyStep_ok md.pattern mods happ]

/-- A non-empty PSK list containing an entry that is not exactly 32 bytes
makes construction fail with the fixed-message length error, regardless of
the PSK count. -/
theorem init_psk_len_error (methods : Methods) (name : List Char)
    (psks : Option (List Bytes)) (md : MappedData) (mods : List (List Char))
    (hlen : name.length ≤ MAX_PROTOCOL_NAME_LEN)
    (hparse : parseProtocolName methods name = .ok (md, mods))
    (happ : ∀ m ∈ mods, m ∈ md.pattern.recognized_modifiers)
    (hne : psks.getD [] ≠ [])
    (hbad : ∃ p ∈ psks.getD [], p.length ≠ 32) :
    NoiseProtocol.init methods name psks =
      .error (.valueError "Invalid psk length!") := by
  rw [init_of_parse methods name psks md mods hlen hparse happ]
  have h1 : (psks.getD []).isEmpty = false := by
    cases hl : psks.getD [] with
    | nil => exact absurd hl hne
    | cons a t => rfl
  have h2 : (psks.getD []).any (fun psk => psk.length != 32) = true := by
    rcases hbad with ⟨p, hp, hp32⟩
    exact List.any_eq_true.mpr ⟨p, hp, by simpa using hp32⟩
  simp [h1, h2]

/-- A non-empty PSK list of valid 32-byte entries whose count disagrees with
the declared `psk_count` makes construction fail with the count-mismatch
error, reporting both the required and the given counts. -/
theorem init_psk_count_error (methods : Methods) (name : List Char)
    (psks : Option (List Bytes)) (md : MappedData) (mods : List (List Char))
    (hlen : name.length ≤ MAX_PROTOCOL_NAME_LEN)
    (hparse : parseProtocolName methods name = .ok (md, mods))
    (happ : ∀ m ∈ mods, m ∈ md.pattern.recognized_modifiers)
    (hne : psks.getD [] ≠ [])
    (hall : ∀ p ∈ psks.getD [], p.length = 32)
    (hcnt : (psks.getD []).length ≠ md.pattern.psk_count) :
    NoiseProtocol.init methods name psks =
      .error (.valueError ("Bad number of PSKs provided to this protocol! " ++
        toString md.pattern.psk_count ++ " are required, given " ++
        toString (psks.getD []).length)) := by
  rw [init_of_parse methods name psks md mods hlen hparse happ]
  have h1 : (psks.getD []).isEmpty = false := by
    cases hl : psks.getD [] with
    | nil => exact absurd hl hne
    | cons a t => rfl
  have h2 : (psks.getD []).any (fun psk => psk.length != 32) = false := by
    rw [List.any_eq_false]
    intro p hp
    simp [hall p hp]
  have h3 : ((psks.getD []).length != md.pattern.psk_count) = true := by
    simpa using hcnt
  simp [h1, h2, h3]

/-- Construction succeeds when the PSK list is absent or empty, or is
non-empty with valid entries in the declared count; the resulting descriptor
carries the resolved entries and placeholder state. -/
theorem init_psk_ok (methods : Methods) (name : List Char)
    (psks : Option (List Bytes)) (md : MappedData) (mods : List (List Char))
    (hlen : name.length ≤ MAX_PROTOCOL_NAME_LEN)
    (hparse : parseProtocolName methods name = .ok (md, mods))
    (happ : ∀ m ∈ mods, m ∈ md.pattern.recognized_modifiers)
    (hok : psks.getD [] = [] ∨
      ((∀ p ∈ psks.getD [], p.length = 32) ∧
        (psks.getD []).length = md.pattern.psk_count)) :
    NoiseProtocol.init methods name psks =
      .ok { name := name, pattern := md.pattern, pattern_modifiers := mods,
            psks := psks, is_psk_handshake := !(psks.getD []).isEmpty,
            dh_fn := md.dh, cipher_fn := md.cipher, hash_fn := md.hash,
            keypair_fn := md.keypair, initiator := none, one_way := false,
            handshake_hash := none, handshake_state := none,
            symmetric_state := none, cipher_state_handshake_present := true,
            cipher_state_encrypt_present := true,
            cipher_state_decrypt_present := true } := by
  rw [init_of_parse methods name psks md mods hlen hparse happ]
  rcases hok with hl | ⟨hall, hcnt⟩
  · simp [hl]
  · have h2 : (psks.getD []).any (fun psk => psk.length != 32) = false := by
      rw [List.any_eq_false]
      intro p hp
      simp [hall p hp]
    have h3 : ((psks.getD []).length != md.pattern.psk_count) = false := by
      simp [hcnt]
    simp [h2, h3]

/-- Finalization on a two-way pattern: copies the role and the transcript
hash, touches neither cipher-state slot. -/
theorem handshake_done_two_way (d : NoiseProtocol) (hs : HandshakeState)
    (ss : SymmetricState)
    (hone : d.pattern.one_way = false)
    (hhs : d.handshake_state = some hs) (hss : d.symmetric_state = some ss) :
    d.handshake_done = .ok { d with initiator := some hs.initiator,
                                    handshake_hash := some ss.h } := by
  unfold NoiseProtocol.handshake_done
  rw [hhs]
  simp only [hone, Bool.false_eq_true, if_false]
  simp [hss]

/-- Finalization on a one-way pattern as initiator: discards the decrypt
slot. -/
theorem handshake_done_one_way_initiator (d : NoiseProtocol)
    (hs : HandshakeState) (ss : SymmetricState)
    (hone : d.pattern.one_way = true) (hinit : hs.initiator = true)
    (hhs : d.handshake_state = some hs) (hss : d.symmetric_state = some ss)
    (hdec : d.cipher_state_decrypt_present = true) :
    d.handshake_done = .ok { d with initiator := some hs.initiator,
                                    cipher_state_decrypt_present := false,
                                    handshake_hash := some ss.h } := by
  unfold NoiseProtocol.handshake_done
  rw [hhs]
  simp only [hone, hinit, if_true, hdec]
  simp [hss]

/-- Finalization on a one-way pattern as responder: discards the encrypt
slot. -/
theorem handshake_done_one_way_responder (d : NoiseProtocol)
    (hs : HandshakeState) (ss : SymmetricState)
    (hone : d.pattern.one_way = true) (hinit : hs.initiator = false)
    (hhs : d.handshake_state = some hs) (hss : d.symmetric_state = some ss)
    (henc : d.cipher_state_encrypt_present = true) :
    d.handshake_done = .ok { d with initiator := some hs.initiator,
                                    cipher_state_encrypt_present := false,
                                    handshake_hash := some ss.h } := by
  unfold NoiseProtocol.handshake_done
  rw [hhs]
  simp only [hone, hinit, Bool.false_eq_true, if_false, if_true, henc]
  simp [hss]

/-- Finalization on a one-way pattern as initiator with the decrypt slot
already deleted: the `del` raises `AttributeError`. -/
theorem handshake_done_one_way_initiator_deleted (d : NoiseProtocol)
    (hs : HandshakeState)
    (hone : d.pattern.one_way = true) (hinit : hs.initiator = true)
    (hhs : d.handshake_state = some hs)
    (hdec : d.cipher_state_decrypt_present = false) :
    d.handshake_done = .error (.attributeError "cipher_state_decrypt") := by
  unfold NoiseProtocol.handshake_done
  rw [hhs]
  simp [hone, hinit, hdec]

/-- Finalization on a one-way pattern as responder with the encrypt slot
already deleted: the `del` raises `AttributeError`. -/
theorem handshake_done_one_way_responder_deleted (d : NoiseProtocol)
    (hs : HandshakeState)
    (hone : d.pattern.one_way = true) (hinit : hs.initiator = false)
    (hhs : d.handshake_state = some hs)
    (henc : d.cipher_state_encrypt_present = false) :
    d.handshake_done = .error (.attributeError "cipher_state_encrypt") := by
  unfold NoiseProtocol.handshake_done
  rw [hhs]
  simp [hone, hinit, henc]

/-- Helper: the head of a cons list is its first character. -/
theorem head_cons_isUpper_false {c0 : Char} (rest : List Char)
    (h0 : c0.isUpper = false) :
    ∀ c : Char, (c0 :: rest).head? = some c → c.isUpper = false := by
  intro c hc
  simp only [List.head?_cons] at hc
  have hcc := Option.some.inj hc
  exact hcc ▸ h0

/-- Helper: the empty modifier suffix has no head. -/
theorem head_nil_isUpper_false :
    ∀ c : Char, (([] : List Char)).head? = some c → c.isUpper = false := by
  intro c hc
  simp at hc

def nameIKpsk2 : List Char := "Noise_IKpsk2_25519_ChaChaPoly_BLAKE2s".toList

def nameXX : List Char := "Noise_XX_25519_AESGCM_SHA256".toList

def nameN : List Char := "Noise_N_25519_AESGCM_SHA256".toList

/-- Claim C1: for every identifier byte-string of the form
`Noise_<P><mods>_<dh>_<cipher>_<hash>` where `<P>` is a non-empty run of
uppercase letters and the pattern, DH, cipher and hash keys are present in
their registries (the pattern accepting the parsed modifiers), construction
succeeds and resolves the pattern registry entry for `<P>`, the DH entry for
`<dh>`, the cipher entry for `<cipher>`, the hash entry for `<hash>` and the
key-pair entry for the same `<dh>` key; the ordered modifier list is the
non-uppercase suffix of segment 1 split on `+` (empty when the suffix is
empty). -/
theorem claim_c1 (methods : Methods)
    (P mods dhKey cipherKey hashKey : List Char)
    (pat : Pattern) (dhF cipherF hashF keypairF : String)
    (hPne : P ≠ [])
    (hP : ∀ c ∈ P, c.isUpper = true)
    (hm : ∀ c, mods.head? = some c → c.isUpper = false)
    (hPu : '_' ∉ P) (hmu : '_' ∉ mods)
    (h2 : '_' ∉ dhKey) (h3 : '_' ∉ cipherKey) (h4 : '_' ∉ hashKey)
    (hlen : (mkName (P ++ mods) dhKey cipherKey hashKey).length ≤
      MAX_PROTOCOL_NAME_LEN)
    (hpat : assocLookup methods.patterns_map ("Pattern".toList ++ P) = some pat)
    (hdh : assocLookup methods.dh_map dhKey = some dhF)
    (hci : assocLookup methods.cipher_map cipherKey = some cipherF)
    (hha : assocLookup methods.hash_map hashKey = some hashF)
    (hkp : assocLookup methods.keypair_map dhKey = some keypairF)
    (happ : ∀ m ∈ (if mods.isEmpty then ([] : List (List Char))
                   else pySplit '+' mods), m ∈ pat.recognized_modifiers) :
    NoiseProtocol.init methods (mkName (P ++ mods) dhKey cipherKey hashKey)
        none =
      .ok { name := mkName (P ++ mods) dhKey cipherKey hashKey,
            pattern := pat,
            pattern_modifiers := if mods.isEmpty then [] else pySplit '+' mods,
            psks := none, is_psk_handshake := false,
            dh_fn := dhF, cipher_fn := cipherF, hash_fn := hashF,
            keypair_fn := keypairF,
            initiator := none, one_way := false, handshake_hash := none,
            handshake_state := none, symmetric_state := none,
            cipher_state_handshake_present := true,
            cipher_state_encrypt_present := true,
            cipher_state_decrypt_present := true } := by
  have hparse := parseProtocolName_ok methods P mods dhKey cipherKey hashKey
    pat dhF cipherF hashF keypairF hP hm hPu hmu h2 h3 h4 hpat hdh hci hha hkp
  have h := init_psk_ok methods _ none
    { pattern := pat, dh := dhF, cipher := cipherF, hash := hashF,
      keypair := keypairF }
    (if mods.isEmpty then [] else pySplit '+' mods) hlen hparse happ
    (Or.inl rfl)
  simpa using h

/-- Witness for C1 at the two identifiers named in the claim:
`Noise_IKpsk2_25519_ChaChaPoly_BLAKE2s` resolves pattern `IK` with modifier
list `["psk2"]`, and `Noise_XX_25519_AESGCM_SHA256` resolves pattern `XX`
with no modifiers. -/
theorem claim_c1_witness :
    NoiseProtocol.init testMethods nameIKpsk2 none =
      .ok { name := nameIKpsk2, pattern := patternIK,
            pattern_modifiers := ["psk2".toList],
            psks := none, is_psk_handshake := false,
            dh_fn := "X25519", cipher_fn := "CipherChaChaPoly",
            hash_fn := "HashBLAKE2s", keypair_fn := "KeyPair25519",
            initiator := none, one_way := false, handshake_hash := none,
            handshake_state := none, symmetric_state := none,
            cipher_state_handshake_present := true,
            cipher_state_encrypt_present := true,
            cipher_state_decrypt_present := true } ∧
    NoiseProtocol.init testMethods nameXX none =
      .ok { name := nameXX, pattern := patternXX,
            pattern_modifiers := [],
            psks := none, is_psk_handshake := false,
            dh_fn := "X25519", cipher_fn := "CipherAESGCM",
            hash_fn := "HashSHA256", keypair_fn := "KeyPair25519",
            initiator := none, one_way := false, handshake_hash := none,
            handshake_state := none, symmetric_state := none,
            cipher_state_handshake_present := true,
            cipher_state_encrypt_present := true,
            cipher_state_decrypt_present := true } := by
  constructor
  · have e : nameIKpsk2 = mkName ("IK".toList ++ "psk2".toList) "25519".toList
        "ChaChaPoly".toList "BLAKE2s".toList := by decide
    rw [e]
    exact claim_c1 testMethods "IK".toList "psk2".toList "25519".toList
      "ChaChaPoly".toList "BLAKE2s".toList patternIK "X25519"
      "CipherChaChaPoly" "HashBLAKE2s" "KeyPair25519"
      (by decide) (by decide) (head_cons_isUpper_false _ (by decide))
      (by decide) (by decide) (by decide) (by decide) (by decide) (by decide)
      (by decide) (by decide) (by decide) (by decide) (by decide) (by decide)
  · have e : nameXX = mkName ("XX".toList ++ []) "25519".toList
        "AESGCM".toList "SHA256".toList := by decide
    rw [e]
    exact claim_c1 testMethods "XX".toList [] "25519".toList
      "AESGCM".toList "SHA256".toList patternXX "X25519"
      "CipherAESGCM" "HashSHA256" "KeyPair25519"
      (by decide) (by decide) head_nil_isUpper_false
      (by decide) (by decide) (by decide) (by decide) (by decide) (by decide)
      (by decide) (by decide) (by decide) (by decide) (by decide) (by decide)

/-- Claim C9: for every identifier with more than 5 underscore-delimited
segments whose first five segments are well-formed and name known
primitives, construction succeeds the same way as for the 5-segment prefix:
every segment beyond the hash token is silently ignored, and the resolved
descriptor is identical except for the verbatim raw `name`. -/
theorem claim_c9 (methods : Methods)
    (P mods dhKey cipherKey hashKey rest : List Char)
    (pat : Pattern) (dhF cipherF hashF keypairF : String)
    (hPne : P ≠ [])
    (hP : ∀ c ∈ P, c.isUpper = true)
    (hm : ∀ c, mods.head? = some c → c.isUpper = false)
    (hPu : '_' ∉ P) (hmu : '_' ∉ mods)
    (h2 : '_' ∉ dhKey) (h3 : '_' ∉ cipherKey) (h4 : '_' ∉ hashKey)
    (hlen : (mkName (P ++ mods) dhKey cipherKey
      (hashKey ++ '_' :: rest)).length ≤ MAX_PROTOCOL_NAME_LEN)
    (hpat : assocLookup methods.patterns_map ("Pattern".toList ++ P) = some pat)
    (hdh : assocLookup methods.dh_map dhKey = some dhF)
    (hci : assocLookup methods.cipher_map cipherKey = some cipherF)
    (hha : assocLookup methods.hash_map hashKey = some hashF)
    (hkp : assocLookup methods.keypair_map dhKey = some keypairF)
    (happ : ∀ m ∈ (if mods.isEmpty then ([] : List (List Char))
                   else pySplit '+' mods), m ∈ pat.recognized_modifiers) :
    ∃ d, NoiseProtocol.init methods
        (mkName (P ++ mods) dhKey cipherKey hashKey) none = .ok d ∧
      NoiseProtocol.init methods
        (mkName (P ++ mods) dhKey cipherKey (hashKey ++ '_' :: rest)) none =
        .ok { d with
              name := mkName (P ++ mods) dhKey cipherKey
                (hashKey ++ '_' :: rest) } := by
  have hlenBase : (mkName (P ++ mods) dhKey cipherKey hashKey).length ≤
      MAX_PROTOCOL_NAME_LEN := by
    simp only [mkName, List.length_append, List.length_cons] at hlen ⊢
    omega
  have hparseBase := parseProtocolName_ok methods P mods dhKey cipherKey
    hashKey pat dhF cipherF hashF keypairF hP hm hPu hmu h2 h3 h4
    hpat hdh hci hha hkp
  have hparseExt := parseProtocolName_ok_ext methods P mods dhKey cipherKey
    hashKey rest pat dhF cipherF hashF keypairF hP hm hPu hmu h2 h3 h4
    hpat hdh hci hha hkp
  refine ⟨_, init_psk_ok methods _ none
    { pattern := pat, dh := dhF, cipher := cipherF, hash := hashF,
      keypair := keypairF }
    (if mods.isEmpty then [] else pySplit '+' mods)
    hlenBase hparseBase happ (Or.inl rfl), ?_⟩
  rw [init_psk_ok methods _ none
    { pattern := pat, dh := dhF, cipher := cipherF, hash := hashF,
      keypair := keypairF }
    (if mods.isEmpty then [] else pySplit '+' mods)
    hlen hparseExt happ (Or.inl rfl)]

def nameXXext : List Char := "Noise_XX_25519_AESGCM_SHA256_garbage_extra".toList

/-- Witness for C9: `Noise_XX_25519_AESGCM_SHA256_garbage_extra` (7
segments) constructs the same descriptor as `Noise_XX_25519_AESGCM_SHA256`
apart from the raw name. -/
theorem claim_c9_witness :
    ∃ d, NoiseProtocol.init testMethods nameXX none = .ok d ∧
      NoiseProtocol.init testMethods nameXXext none =
        .ok { d with name := nameXXext } := by
  have e1 : nameXX = mkName ("XX".toList ++ []) "25519".toList
      "AESGCM".toList "SHA256".toList := by decide
  have e2 : nameXXext = mkName ("XX".toList ++ []) "25519".toList
      "AESGCM".toList ("SHA256".toList ++ '_' :: "garbage_extra".toList) := by
    decide
  rw [e1, e2]
  exact claim_c9 testMethods "XX".toList [] "25519".toList "AESGCM".toList
    "SHA256".toList "garbage_extra".toList patternXX "X25519"
    "CipherAESGCM" "HashSHA256" "KeyPair25519"
    (by decide) (by decide) head_nil_isUpper_false
    (by decide) (by decide) (by decide) (by decide) (by decide) (by decide)
    (by decide) (by decide) (by decide) (by decide) (by decide) (by decide)

/-- Claim C10: for every identifier whose second segment is an uppercase
pattern name immediately followed by `+` (such as `XX+fallback`), the parsed
modifier list begins with an empty-string modifier before the
`+`-separated modifiers, because the modifier suffix retains its leading `+`
when split: at the extraction step, and through `_parse_protocol_name` for
a full identifier of that shape. -/
theorem claim_c10 :
    (∀ P rest : List Char, (∀ c ∈ P, c.isUpper = true) →
      (extractPatternModifiers (P ++ '+' :: rest)).2 =
        [] :: pySplit '+' rest) ∧
    (∀ (methods : Methods) (P rest dhKey cipherKey hashKey : List Char)
        (pat : Pattern) (dhF cipherF hashF keypairF : String),
      (∀ c ∈ P, c.isUpper = true) → '_' ∉ P → '_' ∉ '+' :: rest →
      '_' ∉ dhKey → '_' ∉ cipherKey → '_' ∉ hashKey →
      assocLookup methods.patterns_map ("Pattern".toList ++ P) = some pat →
      assocLookup methods.dh_map dhKey = some dhF →
      assocLookup methods.cipher_map cipherKey = some cipherF →
      assocLookup methods.hash_map hashKey = some hashF →
      assocLookup methods.keypair_map dhKey = some keypairF →
      parseProtocolName methods
          (mkName (P ++ '+' :: rest) dhKey cipherKey hashKey) =
        .ok ({ pattern := pat, dh := dhF, cipher := cipherF, hash := hashF,
               keypair := keypairF }, [] :: pySplit '+' rest)) := by
  have hsplit : ∀ rest : List Char,
      pySplit '+' ('+' :: rest) = [] :: pySplit '+' rest := by
    intro rest
    simp [pySplit]
  constructor
  · intro P rest hP
    rw [extractPatternModifiers_split P ('+' :: rest) hP
      (head_cons_isUpper_false rest (by decide))]
    simp only [List.isEmpty_cons, Bool.false_eq_true, if_false, hsplit]
  · intro methods P rest dhKey cipherKey hashKey pat dhF cipherF hashF
      keypairF hP hPu hmu h2 h3 h4 hpat hdh hci hha hkp
    have h := parseProtocolName_ok methods P ('+' :: rest) dhKey cipherKey
      hashKey pat dhF cipherF hashF keypairF hP
      (head_cons_isUpper_false rest (by decide)) hPu hmu h2 h3 h4
      hpat hdh hci hha hkp
    rw [h]
    simp only [List.isEmpty_cons, Bool.false_eq_true, if_false, hsplit]

/-- Witness for C10 at segment `XX+fallback`: the modifier list is
`["", "fallback"]`, with the empty-string modifier first. -/
theorem claim_c10_witness :
    (extractPatternModifiers "XX+fallback".toList).2 =
      [[], "fallback".toList] ∧
    parseProtocolName testMethods
        "Noise_XX+fallback_25519_AESGCM_SHA256".toList =
      .ok ({ pattern := patternXX, dh := "X25519", cipher := "CipherAESGCM",
             hash := "HashSHA256", keypair := "KeyPair25519" },
           [[], "fallback".toList]) := by
  constructor
  · have e : "XX+fallback".toList =
        "XX".toList ++ '+' :: "fallback".toList := by decide
    rw [e, claim_c10.1 "XX".toList "fallback".toList (by decide)]
    decide
  · have e : "Noise_XX+fallback_25519_AESGCM_SHA256".toList =
        mkName ("XX".toList ++ '+' :: "fallback".toList) "25519".toList
          "AESGCM".toList "SHA256".toList := by decide
    rw [e, claim_c10.2 testMethods "XX".toList "fallback".toList
      "25519".toList "AESGCM".toList "SHA256".toList patternXX "X25519"
      "CipherAESGCM" "HashSHA256" "KeyPair25519"
      (by decide) (by decide) (by decide) (by decide) (by decide) (by decide)
      (by decide) (by decide) (by decide) (by decide) (by decide)]
    rfl

/-- A concrete one-way descriptor whose handshake the external engine has
completed: states populated, both post-handshake slots still present. -/
def dOneWay : NoiseProtocol :=
  { name := nameN, pattern := patternN, pattern_modifiers := [], psks := none,
    is_psk_handshake := false, dh_fn := "X25519", cipher_fn := "CipherAESGCM",
    hash_fn := "HashSHA256", keypair_fn := "KeyPair25519", initiator := none,
    one_way := false, handshake_hash := none,
    handshake_state := some { initiator := true },
    symmetric_state := some { h := [1, 2, 3] },
    cipher_state_handshake_present := true,
    cipher_state_encrypt_present := true,
    cipher_state_decrypt_present := true }

/-- Claim C2: for every descriptor over a one-way pattern whose handshake
has completed (states populated, both slots present as construction left
them), finalization leaves exactly one post-handshake cipher-state slot
accessible, determined solely by the initiator flag read from the handshake
state: the initiator keeps `cipher_state_encrypt` and loses
`cipher_state_decrypt`; the responder keeps `cipher_state_decrypt` and loses
`cipher_state_encrypt`; reading the discarded slot afterwards fails with the
programming-error class (`AttributeError`), not the recoverable
`ValueError` class. -/
theorem claim_c2 (d : NoiseProtocol) (hs : HandshakeState)
    (ss : SymmetricState)
    (hone : d.pattern.one_way = true)
    (hhs : d.handshake_state = some hs) (hss : d.symmetric_state = some ss)
    (henc : d.cipher_state_encrypt_present = true)
    (hdec : d.cipher_state_decrypt_present = true) :
    ∃ d2, d.handshake_done = .ok d2 ∧
      d2.cipher_state_encrypt_present = hs.initiator ∧
      d2.cipher_state_decrypt_present = !hs.initiator ∧
      (hs.initiator = true →
        d2.read_cipher_state_encrypt = .ok () ∧
        d2.read_cipher_state_decrypt =
          .error (.attributeError "cipher_state_decrypt") ∧
        (PyError.attributeError "cipher_state_decrypt").isProgrammingError
          = true ∧
        (PyError.attributeError "cipher_state_decrypt").isMalformedClass
          = false) ∧
      (hs.initiator = false →
        d2.read_cipher_state_decrypt = .ok () ∧
        d2.read_cipher_state_encrypt =
          .error (.attributeError "cipher_state_encrypt") ∧
        (PyError.attributeError "cipher_state_encrypt").isProgrammingError
          = true ∧
        (PyError.attributeError "cipher_state_encrypt").isMalformedClass
          = false) := by
  cases hinit : hs.initiator with
  | true =>
    refine ⟨_, handshake_done_one_way_initiator d hs ss hone hinit hhs hss
      hdec, ?_, ?_, ?_, ?_⟩
    · simp [henc, hinit]
    · simp [hinit]
    · intro _
      refine ⟨?_, ?_, rfl, rfl⟩
      · simp [NoiseProtocol.read_cipher_state_encrypt, henc]
      · simp [NoiseProtocol.read_cipher_state_decrypt]
    · intro hx
      exact Bool.noConfusion hx
  | false =>
    refine ⟨_, handshake_done_one_way_responder d hs ss hone hinit hhs hss
      henc, ?_, ?_, ?_, ?_⟩
    · simp [hinit]
    · simp [hdec, hinit]
    · intro hx
      exact Bool.noConfusion hx
    · intro _
      refine ⟨?_, ?_, rfl, rfl⟩
      · simp [NoiseProtocol.read_cipher_state_decrypt, hdec]
      · simp [NoiseProtocol.read_cipher_state_encrypt]

/-- Witness for C2 at a concrete one-way initiator descriptor. -/
theorem claim_c2_witness :
    ∃ d2, dOneWay.handshake_done = .ok d2 ∧
      d2.cipher_state_encrypt_present = true ∧
      d2.cipher_state_decrypt_present = false ∧
      d2.read_cipher_state_decrypt =
        .error (.attributeError "cipher_state_decrypt") := by
  obtain ⟨d2, h1, h2, h3, h4, _⟩ :=
    claim_c2 dOneWay ⟨true⟩ ⟨[1, 2, 3]⟩ rfl rfl rfl rfl rfl
  obtain ⟨_, h5, _, _⟩ := h4 rfl
  exact ⟨d2, h1, h2, h3, h5⟩

/-- Claim C7: for every descriptor whose handshake engine has completed,
finalization copies the initiator role from the populated handshake state
onto the descriptor and sets `handshake_hash` to the transcript hash held by
the symmetric state at the moment of completion; `handshake_hash` is not
changed by any later operation of this core (its only post-construction
operation being `handshake_done` itself). -/
theorem claim_c7 (d : NoiseProtocol) (hs : HandshakeState)
    (ss : SymmetricState)
    (hhs : d.handshake_state = some hs) (hss : d.symmetric_state = some ss)
    (d2 : NoiseProtocol) (hdone : d.handshake_done = .ok d2) :
    d2.initiator = some hs.initiator ∧ d2.handshake_hash = some ss.h ∧
    (∀ d3, d2.handshake_done = .ok d3 →
      d3.handshake_hash = d2.handshake_hash) := by
  cases hone : d.pattern.one_way with
  | false =>
    rw [handshake_done_two_way d hs ss hone hhs hss] at hdone
    injection hdone with hd2
    subst hd2
    refine ⟨by simp, by simp, ?_⟩
    intro d3 h3
    rw [handshake_done_two_way _ hs ss (by simp [hone]) (by simp [hhs])
      (by simp [hss])] at h3
    injection h3 with hd3
    subst hd3
    simp
  | true =>
    cases hinit : hs.initiator with
    | true =>
      cases hdecp : d.cipher_state_decrypt_present with
      | true =>
        rw [handshake_done_one_way_initiator d hs ss hone hinit hhs hss
          hdecp] at hdone
        injection hdone with hd2
        subst hd2
        refine ⟨by simp [hinit], by simp, ?_⟩
        intro d3 h3
        rw [handshake_done_one_way_initiator_deleted _ hs (by simp [hone])
          hinit (by simp [hhs]) (by simp)] at h3
        exact Except.noConfusion h3
      | false =>
        rw [handshake_done_one_way_initiator_deleted d hs hone hinit hhs
          hdecp] at hdone
        exact Except.noConfusion hdone
    | false =>
      cases hencp : d.cipher_state_encrypt_present with
      | true =>
        rw [handshake_done_one_way_responder d hs ss hone hinit hhs hss
          hencp] at hdone
        injection hdone with hd2
        subst hd2
        refine ⟨by simp [hinit], by simp, ?_⟩
        intro d3 h3
        rw [handshake_done_one_way_responder_deleted _ hs (by simp [hone])
          hinit (by simp [hhs]) (by simp)] at h3
        exact Except.noConfusion h3
      | false =>
        rw [handshake_done_one_way_responder_deleted d hs hone hinit hhs
          hencp] at hdone
        exact Except.noConfusion hdone

/-- The descriptor `dOneWay` after finalization. -/
def dOneWayDone : NoiseProtocol :=
  { dOneWay with initiator := some true,
                 cipher_state_decrypt_present := false,
                 handshake_hash := some [1, 2, 3] }

/-- Witness for C7 at a concrete completed descriptor. -/
theorem claim_c7_witness :
    dOneWayDone.initiator = some true ∧
    dOneWayDone.handshake_hash = some [1, 2, 3] ∧
    (∀ d3, dOneWayDone.handshake_done = .ok d3 →
      d3.handshake_hash = dOneWayDone.handshake_hash) :=
  claim_c7 dOneWay ⟨true⟩ ⟨[1, 2, 3]⟩ rfl rfl dOneWayDone rfl

/-- A concrete two-way descriptor whose handshake the external engine has
completed. -/
def dTwoWay : NoiseProtocol :=
  { name := nameXX, pattern := patternXX, pattern_modifiers := [],
    psks := none, is_psk_handshake := false, dh_fn := "X25519",
    cipher_fn := "CipherAESGCM", hash_fn := "HashSHA256",
    keypair_fn := "KeyPair25519", initiator := none, one_way := false,
    handshake_hash := none, handshake_state := some { initiator := true },
    symmetric_state := some { h := [9, 9] },
    cipher_state_handshake_present := true,
    cipher_state_encrypt_present := true,
    cipher_state_decrypt_present := true }

/-- The descriptor `dTwoWay` after finalization. -/
def dTwoWayDone : NoiseProtocol :=
  { dTwoWay with initiator := some true, handshake_hash := some [9, 9] }

/-- Counterexample to C8 as stated: on a two-way pattern, a second
invocation of `handshake_done` is NOT rejected with an error — it succeeds
and silently repeats its assignments. -/
theorem claim_c8_counterexample :
    dTwoWay.handshake_done = .ok dTwoWayDone ∧
    dTwoWayDone.handshake_done = .ok dTwoWayDone := ⟨rfl, rfl⟩

/-- Claim C8 (amended): after a finalization that started from a completed,
construction-fresh slot state, a second invocation of `handshake_done` is
rejected with an `AttributeError` when the pattern is one-way (the `del` of
the already-deleted slot fails), but on a two-way pattern it is not
rejected: it succeeds and silently repeats its effects, returning the same
descriptor. -/
theorem claim_c8 (d : NoiseProtocol) (hs : HandshakeState)
    (ss : SymmetricState) (d2 : NoiseProtocol)
    (hhs : d.handshake_state = some hs) (hss : d.symmetric_state = some ss)
    (henc : d.cipher_state_encrypt_present = true)
    (hdec : d.cipher_state_decrypt_present = true)
    (hdone : d.handshake_done = .ok d2) :
    (d.pattern.one_way = true →
      ∃ a, d2.handshake_done = .error (.attributeError a)) ∧
    (d.pattern.one_way = false → d2.handshake_done = .ok d2) := by
  cases hone : d.pattern.one_way with
  | false =>
    rw [handshake_done_two_way d hs ss hone hhs hss] at hdone
    injection hdone with hd2
    subst hd2
    constructor
    · intro hx
      exact Bool.noConfusion hx
    · intro _
      exact handshake_done_two_way _ hs ss (by simp [hone]) (by simp [hhs])
        (by simp [hss])
  | true =>
    cases hinit : hs.initiator with
    | true =>
      rw [handshake_done_one_way_initiator d hs ss hone hinit hhs hss
        hdec] at hdone
      injection hdone with hd2
      subst hd2
      constructor
      · intro _
        exact ⟨"cipher_state_decrypt",
          handshake_done_one_way_initiator_deleted _ hs (by simp [hone])
            hinit (by simp [hhs]) (by simp)⟩
      · intro hx
        exact Bool.noConfusion hx
    | false =>
      rw [handshake_done_one_way_responder d hs ss hone hinit hhs hss
        henc] at hdone
      injection hdone with hd2
      subst hd2
      constructor
      · intro _
        exact ⟨"cipher_state_encrypt",
          handshake_done_one_way_responder_deleted _ hs (by simp [hone])
            hinit (by simp [hhs]) (by simp)⟩
      · intro hx
        exact Bool.noConfusion hx

/-- Witness for C8 (amended) at concrete one-way and two-way descriptors. -/
theorem claim_c8_witness :
    (∃ a, dOneWayDone.handshake_done = .error (.attributeError a)) ∧
    dTwoWayDone.handshake_done = .ok dTwoWayDone :=
  ⟨(claim_c8 dOneWay ⟨true⟩ ⟨[1, 2, 3]⟩ dOneWayDone rfl rfl rfl rfl rfl).1
      rfl,
   (claim_c8 dTwoWay ⟨true⟩ ⟨[9, 9]⟩ dTwoWayDone rfl rfl rfl rfl rfl).2 rfl⟩

/-- The descriptor resolved for `Noise_N_25519_AESGCM_SHA256` (the one-way
pattern `N`): note `one_way = false` even though the pattern is one-way. -/
def dN : NoiseProtocol :=
  { name := nameN, pattern := patternN, pattern_modifiers := [], psks := none,
    is_psk_handshake := false, dh_fn := "X25519", cipher_fn := "CipherAESGCM",
    hash_fn := "HashSHA256", keypair_fn := "KeyPair25519", initiator := none,
    one_way := false, handshake_hash := none, handshake_state := none,
    symmetric_state := none, cipher_state_handshake_present := true,
    cipher_state_encrypt_present := true,
    cipher_state_decrypt_present := true }

/-- Counterexample to C6 as stated: constructing over the one-way pattern
`N` yields a descriptor whose `one_way` field is `false` while the resolved
pattern is classified one-way. -/
theorem claim_c6_counterexample :
    NoiseProtocol.init testMethods nameN none = .ok dN ∧
    dN.one_way = false ∧ dN.pattern.one_way = true := ⟨rfl, rfl, rfl⟩

/-- Claim C6 (amended): every successfully constructed descriptor has
`one_way = false` regardless of the pattern classification — the field is
initialized to `False` and never updated by this core; finalization reads
the classification from `pattern.one_way` directly, and preserves the
`one_way` field unchanged. -/
theorem claim_c6 :
    (∀ (methods : Methods) (name : List Char) (psks : Option (List Bytes))
        (d : NoiseProtocol),
      NoiseProtocol.init methods name psks = .ok d → d.one_way = false) ∧
    (∀ d d2 : NoiseProtocol, d.handshake_done = .ok d2 →
      d2.one_way = d.one_way) := by
  constructor
  · intro methods name psks d h
    simp only [NoiseProtocol.init] at h
    repeat' split at h
    any_goals exact Except.noConfusion h
    injection h with hd
    subst hd
    rfl
  · intro d d2 h
    simp only [NoiseProtocol.handshake_done] at h
    split at h
    next => exact Except.noConfusion h
    next hs hhs =>
      split at h
      next => exact Except.noConfusion h
      next self2 heq1 =>
        split at h
        next => exact Except.noConfusion h
        next ss hss2 =>
          injection h with hd
          subst hd
          have hself : self2.one_way = d.one_way := by
            repeat' split at heq1
            any_goals exact Except.noConfusion heq1
            all_goals
              injection heq1 with h2
              subst h2
              rfl
          simpa using hself

/-- Witness for C6 (amended) at concrete descriptors. -/
theorem claim_c6_witness :
    dN.one_way = false ∧ dOneWayDone.one_way = dOneWay.one_way :=
  ⟨claim_c6.1 testMethods nameN none dN rfl,
   claim_c6.2 dOneWay dOneWayDone rfl⟩

def nameShort : List Char := "Noise_XX_25519".toList

/-- Counterexample to C5 as stated: an identifier that passes the type,
length and `Noise`-prefix checks but has fewer than 5 segments makes
construction fail with a raw `IndexError`, which is not of the
malformed-identifier / unknown-primitive (`ValueError`) class. -/
theorem claim_c5_counterexample :
    NoiseProtocol.init testMethods nameShort none = .error .indexError ∧
    PyError.indexError.isMalformedClass = false := ⟨rfl, rfl⟩

/-- Claim C5 (amended): for every identifier that passes the length and
`Noise`-prefix checks but has fewer than 5 underscore-delimited segments,
construction fails — but with the raw index error escaping from segment
indexing, an unrelated failure class, not the malformed-identifier /
unknown-primitive `ValueError` class. -/
theorem claim_c5 (methods : Methods) (name : List Char)
    (psks : Option (List Bytes))
    (hlen : name.length ≤ MAX_PROTOCOL_NAME_LEN)
    (hpre : (pySplit '_' name).headD [] = "Noise".toList)
    (hfew : (pySplit '_' name).length < 5) :
    NoiseProtocol.init methods name psks = .error .indexError ∧
    PyError.indexError.isMalformedClass = false := by
  refine ⟨?_, rfl⟩
  have hseg : parseProtocolName methods name = .error .indexError := by
    unfold parseProtocolName
    rcases hu : pySplit '_' name with _ | ⟨a, t⟩
    · exact absurd hu (pySplit_ne_nil '_' name)
    · rw [hu] at hpre hfew
      simp only [List.headD_cons] at hpre
      subst hpre
      rcases t with _ | ⟨b, t2⟩
      · simp [parseSegments, listGet]
      · rcases t2 with _ | ⟨c, t3⟩
        · simp [parseSegments, listGet]
        · rcases t3 with _ | ⟨e4, t4⟩
          · simp [parseSegments, listGet]
          · rcases t4 with _ | ⟨f5, t5⟩
            · simp [parseSegments, listGet]
            · simp only [List.length_cons] at hfew
              omega
  unfold NoiseProtocol.init
  rw [if_neg (by omega), hseg]

/-- Witness for C5 (amended) at `Noise_XX_25519`. -/
theorem claim_c5_witness :
    NoiseProtocol.init testMethods nameShort (some [[0]]) =
      .error .indexError ∧
    PyError.indexError.isMalformedClass = false :=
  claim_c5 testMethods nameShort (some [[0]]) (by decide) (by decide)
    (by decide)

def psk31 : Bytes := List.replicate 31 0

def psk32 : Bytes := List.replicate 32 0

/-- The resolved entries for `Noise_IKpsk2_25519_ChaChaPoly_BLAKE2s` over
the test registries. -/
def mdIK : MappedData :=
  { pattern := patternIK, dh := "X25519", cipher := "CipherChaChaPoly",
    hash := "HashBLAKE2s", keypair := "KeyPair25519" }

/-- Counterexample to C3 as stated: a 31-byte PSK makes construction fail
with the fixed message `Invalid psk length!`, which contains no digit at all
and therefore does not identify the violating PSK length. -/
theorem claim_c3_counterexample :
    NoiseProtocol.init testMethods nameIKpsk2 (some [psk31]) =
      .error (.valueError "Invalid psk length!") ∧
    ("Invalid psk length!".toList.all fun c => !c.isDigit) = true :=
  ⟨rfl, by decide⟩

/-- Claim C3 (amended): PSK-handshake mode is true iff the supplied PSK
list is non-empty.  When true: if any supplied PSK is not exactly 32 bytes,
construction fails with the fixed-message length error (which does not
identify the violating length), even if all others are valid and regardless
of the count; otherwise, if the list length differs from the declared
`psk_count`, construction fails with the count-mismatch error reporting both
the required and the given counts; otherwise it succeeds in PSK mode.  When
false, no PSK validation occurs and construction succeeds with the PSK
field as given. -/
theorem claim_c3 (methods : Methods) (name : List Char)
    (psks : Option (List Bytes)) (md : MappedData) (mods : List (List Char))
    (hlen : name.length ≤ MAX_PROTOCOL_NAME_LEN)
    (hparse : parseProtocolName methods name = .ok (md, mods))
    (happ : ∀ m ∈ mods, m ∈ md.pattern.recognized_modifiers) :
    ((psks.getD [] ≠ [] ∧ ∃ p ∈ psks.getD [], p.length ≠ 32) →
      NoiseProtocol.init methods name psks =
        .error (.valueError "Invalid psk length!")) ∧
    ((psks.getD [] ≠ [] ∧ (∀ p ∈ psks.getD [], p.length = 32) ∧
        (psks.getD []).length ≠ md.pattern.psk_count) →
      NoiseProtocol.init methods name psks =
        .error (.valueError ("Bad number of PSKs provided to this protocol! "
          ++ toString md.pattern.psk_count ++ " are required, given " ++
          toString (psks.getD []).length))) ∧
    ((psks.getD [] ≠ [] ∧ (∀ p ∈ psks.getD [], p.length = 32) ∧
        (psks.getD []).length = md.pattern.psk_count) →
      ∃ d, NoiseProtocol.init methods name psks = .ok d ∧
        d.is_psk_handshake = true ∧ d.psks = psks) ∧
    (psks.getD [] = [] →
      ∃ d, NoiseProtocol.init methods name psks = .ok d ∧
        d.is_psk_handshake = false ∧ d.psks = psks) := by
  refine ⟨fun h => init_psk_len_error methods name psks md mods hlen hparse
      happ h.1 h.2,
    fun h => init_psk_count_error methods name psks md mods hlen hparse
      happ h.1 h.2.1 h.2.2,
    fun h => ⟨_, init_psk_ok methods name psks md mods hlen hparse happ
      (Or.inr ⟨h.2.1, h.2.2⟩), ?_, rfl⟩,
    fun hl => ⟨_, init_psk_ok methods name psks md mods hlen hparse happ
      (Or.inl hl), ?_, rfl⟩⟩
  · cases hlst : psks.getD [] with
    | nil => exact absurd hlst h.1
    | cons a t => simp [hlst]
  · simp [hl]

/-- Witness for C3 (amended): a valid single 32-byte PSK for
`Noise_IKpsk2_25519_ChaChaPoly_BLAKE2s` constructs in PSK-handshake mode. -/
theorem claim_c3_witness :
    ∃ d, NoiseProtocol.init testMethods nameIKpsk2 (some [psk32]) = .ok d ∧
      d.is_psk_handshake = true ∧ d.psks = some [psk32] :=
  (claim_c3 testMethods nameIKpsk2 (some [psk32]) mdIK ["psk2".toList]
    (by decide) rfl (by decide)).2.2.1 ⟨by decide, by decide, by decide⟩

/-- Counterexample to C4 as stated: a PSK list with a wrong count (2 given,
1 required) that also contains an invalid-length PSK fails with the length
error, not the count-mismatch error the claim demands. -/
theorem claim_c4_counterexample :
    NoiseProtocol.init testMethods nameIKpsk2 (some [psk31, psk32]) =
      .error (.valueError "Invalid psk length!") ∧
    ¬("Invalid psk length!" = "Bad number of PSKs provided to this protocol! "
        ++ toString patternIK.psk_count ++ " are required, given " ++
        toString 2) :=
  ⟨rfl, by decide⟩

/-- Claim C4 (amended): a non-empty PSK list whose length disagrees with the
declared `psk_count` fails with the count-mismatch error provided every PSK
is exactly 32 bytes; when the list also contains a PSK of the wrong length,
the length check runs first and construction fails with the length error
instead. -/
theorem claim_c4 (methods : Methods) (name : List Char)
    (psks : Option (List Bytes)) (md : MappedData) (mods : List (List Char))
    (hlen : name.length ≤ MAX_PROTOCOL_NAME_LEN)
    (hparse : parseProtocolName methods name = .ok (md, mods))
    (happ : ∀ m ∈ mods, m ∈ md.pattern.recognized_modifiers) :
    ((psks.getD [] ≠ [] ∧ (∀ p ∈ psks.getD [], p.length = 32) ∧
        (psks.getD []).length ≠ md.pattern.psk_count) →
      NoiseProtocol.init methods name psks =
        .error (.valueError ("Bad number of PSKs provided to this protocol! "
          ++ toString md.pattern.psk_count ++ " are required, given " ++
          toString (psks.getD []).length))) ∧
    ((psks.getD [] ≠ [] ∧ ∃ p ∈ psks.getD [], p.length ≠ 32) →
      NoiseProtocol.init methods name psks =
        .error (.valueError "Invalid psk length!")) :=
  ⟨fun h => init_psk_count_error methods name psks md mods hlen hparse happ
      h.1 h.2.1 h.2.2,
   fun h => init_psk_len_error methods name psks md mods hlen hparse happ
      h.1 h.2⟩

/-- Witness for C4 (amended): two valid 32-byte PSKs where one is required
fail with the count-mismatch error naming both counts. -/
theorem claim_c4_witness :
    NoiseProtocol.init testMethods nameIKpsk2 (some [psk32, psk32]) =
      .error (.valueError
        "Bad number of PSKs provided to this protocol! 1 are required, given 2") :=
  (claim_c4 testMethods nameIKpsk2 (some [psk32, psk32]) mdIK
    ["psk2".toList] (by decide) rfl (by decide)).1
    ⟨by decide, by decide, by decide⟩
